import Mathlib

/-!
Verification of the VSCode extension-testing session supervisor of the
kilo-dev-mcp-server repository (tools/vscode-extension-testing).

Shallow embedding conventions:
* The ExtensionManager singleton's mutable fields (sessions Map,
  currentSessionId, sessionCompletionCallbacks Map) become the MgrState
  record; JS Maps become association lists with unique keys, in insertion
  order, and JS Map.get / Map.delete become mapGet / mapDelete.
* A registered completion callback (the resolve function of a
  waitForSessionCompletion promise) is modelled as membership of the session
  id in MgrState.waiters; invoking the callback appends the pair
  (sessionId, result) to MgrState.delivered, so the number of entries for an
  id in delivered is the number of times its awaiter was resolved.
* Node ChildProcess state relevant to the claims is modelled explicitly:
  process.killed is true exactly when a signal has been successfully sent
  (Node semantics: it does not mean the process exited); the signals a stop
  run sends are returned as a list.  Whether and when the child exits during
  the bounded wait of stopCurrentSession is an input (ProcBehavior).
* Node emits the exit event to listeners in registration order: the listener
  installed by launchExtension (which calls handleExternalProcessTermination)
  runs before the once-listener installed inside stopCurrentSession's wait.
  stopCurrentSession's exits-branch encodes exactly that order.
* Times are Nat milliseconds; JS date subtraction produces Int durations.
* Filesystem effects of launching are returned explicitly (LaunchEffects) so
  that "no prompt file written, no process spawned" is a provable statement;
  fs.existsSync is a Boolean oracle argument.
-/

namespace DevMcp

/-- StopResult from tools/vscode-extension-testing/types.ts: the completion
value assembled by stopCurrentSession and handleExternalProcessTermination. -/
structure StopResult where
  sessionId : String
  duration : Int
  exitCode : Option Int
  output : List String
  errors : List String
deriving Repr, DecidableEq

/-- ExtensionProcess record stored in ExtensionManager.sessions (the
ChildProcess object itself is modelled by ProcBehavior and the signal lists,
see the file header). -/
structure ExtensionProcess where
  sessionId : String
  extensionPath : String
  testDir : String
  prompt : String
  startTime : Nat
  pid : Nat
  output : List String
  errors : List String
deriving Repr, DecidableEq

/-- The mutable fields of the ExtensionManager singleton. -/
structure MgrState where
  sessions : List (String × ExtensionProcess)
  currentSessionId : Option String
  waiters : List String
  delivered : List (String × StopResult)
deriving Repr, DecidableEq

/-- JS Map.get on an association list (first match; keys are unique). -/
def mapGet {α : Type} : List (String × α) → String → Option α
  | [], _ => none
  | p :: rest, k => if p.1 = k then some p.2 else mapGet rest k

/-- JS Map.delete on an association list. -/
def mapDelete {α : Type} (m : List (String × α)) (k : String) : List (String × α) :=
  m.filter (fun p => p.1 != k)

/-- JS Map.set on an association list (ids are freshly generated, so the
insert case appends). -/
def mapSet {α : Type} (m : List (String × α)) (k : String) (v : α) : List (String × α) :=
  if (mapGet m k).isSome then m.map (fun p => if p.1 = k then (k, v) else p) else m ++ [(k, v)]

/-- Number of times the completion callback of a given session id was
invoked, read off the delivery log. -/
def deliveriesFor (sid : String) (d : List (String × StopResult)) : Nat :=
  (d.filter (fun p => p.1 == sid)).length

/-- Registry well-formedness: every record is stored under its own session
id (launchExtension stores each session under session.sessionId). -/
def wfState (st : MgrState) : Bool :=
  st.sessions.all (fun p => p.2.sessionId == p.1)

/-- ExtensionManager.getCurrentSession: `if (!this.currentSessionId) return
undefined; return this.sessions.get(this.currentSessionId)` — note the JS
falsiness test also treats the empty string as no current session. -/
def getCurrentSession (st : MgrState) : Option ExtensionProcess :=
  match st.currentSessionId with
  | none => none
  | some cid => if cid = "" then none else mapGet st.sessions cid

/-- ExtensionManager.getAllSessions: `Array.from(this.sessions.values())`. -/
def getAllSessions (st : MgrState) : List ExtensionProcess :=
  st.sessions.map Prod.snd

/-- ExtensionManager.handleExternalProcessTermination(sessionId, exitCode),
run at time `now`.  Translation of the body: it looks up the session and the
completion callback, and only `if (session && callback)` does it build a
StopResult, invoke the callback, delete the callback, delete the session,
clear currentSessionId when it equals sessionId, and best-effort delete the
prompt file (file deletion is not tracked in MgrState).  With no registered
callback the method does nothing at all. -/
def handleExternalProcessTermination (st : MgrState) (sessionId : String)
    (exitCode : Option Int) (now : Nat) : MgrState :=
  match mapGet st.sessions sessionId with
  | none => st
  | some session =>
    if st.waiters.contains sessionId then
      let duration : Int := (now : Int) - (session.startTime : Int)
      let result : StopResult :=
        { sessionId := session.sessionId, duration := duration, exitCode := exitCode,
          output := session.output, errors := session.errors }
      { sessions := mapDelete st.sessions sessionId,
        currentSessionId :=
          if st.currentSessionId = some sessionId then none else st.currentSessionId,
        waiters := st.waiters.filter (fun x => x != sessionId),
        delivered := st.delivered ++ [(sessionId, result)] }
    else st

/-- How the child process behaves during stopCurrentSession's bounded wait:
either the exit event fires tExit milliseconds after the SIGTERM, or no exit
event fires while the stop call is waiting. -/
inductive ProcBehavior where
  | exits (code : Option Int) (tExit : Nat)
  | noExit
deriving Repr, DecidableEq

/-- The grace period of stopCurrentSession's wait (the 5000 ms setTimeout). -/
def gracePeriodMs : Nat := 5000

/-- Tail of ExtensionManager.stopCurrentSession after the wait resolves:
builds the StopResult from the captured session and the duration computed at
entry, invokes and deregisters the completion callback if one is registered,
deletes the session from the map and clears currentSessionId when it still
names this session.  Returns (returned result, new state, signals sent). -/
def finishStop (st1 : MgrState) (session : ExtensionProcess) (duration : Int)
    (exitCode : Option Int) (sigs : List String) :
    Option StopResult × MgrState × List String :=
  let result : StopResult :=
    { sessionId := session.sessionId, duration := duration, exitCode := exitCode,
      output := session.output, errors := session.errors }
  let hasWaiter := st1.waiters.contains session.sessionId
  (some result,
   { sessions := mapDelete st1.sessions session.sessionId,
     currentSessionId :=
       if st1.currentSessionId = some session.sessionId then none else st1.currentSessionId,
     waiters :=
       if hasWaiter then st1.waiters.filter (fun x => x != session.sessionId) else st1.waiters,
     delivered :=
       if hasWaiter then st1.delivered ++ [(session.sessionId, result)] else st1.delivered },
   sigs)

/-- ExtensionManager.stopCurrentSession run at time `now` with child
behavior `beh`.  Faithful points: the duration is computed at entry, before
the kill; `session.process.kill("SIGTERM")` succeeds on the live process and
per Node sets process.killed to true (killed records that a signal was sent,
not that the process exited); if the exit event fires within the 5000 ms
grace period, the exit listener registered at launch runs
handleExternalProcessTermination first and only then does the once-listener
of the wait record the exit code and resume; if the timeout fires first, the
code sends SIGKILL only `if (session.process.killed === false)`, and the
locally recorded exit code stays null. -/
def stopCurrentSession (st : MgrState) (now : Nat) (beh : ProcBehavior) :
    Option StopResult × MgrState × List String :=
  match getCurrentSession st with
  | none => (none, st, [])
  | some session =>
    let duration : Int := (now : Int) - (session.startTime : Int)
    let killedFlag := true
    match beh with
    | .exits code tExit =>
      if tExit ≤ gracePeriodMs then
        let st1 := handleExternalProcessTermination st session.sessionId code (now + tExit)
        finishStop st1 session duration code ["SIGTERM"]
      else
        finishStop st session duration none
          (if killedFlag = false then ["SIGTERM", "SIGKILL"] else ["SIGTERM"])
    | .noExit =>
      finishStop st session duration none
        (if killedFlag = false then ["SIGTERM", "SIGKILL"] else ["SIGTERM"])

/-- ExtensionManager.stopSessionById: absent session gives undefined;
otherwise it temporarily marks the session current, delegates to
stopCurrentSession, then restores the previous current pointer
`if (previousCurrentSessionId && previousCurrentSessionId !== sessionId)`
(JS falsiness: a null or empty previous pointer is not restored). -/
def stopSessionById (st : MgrState) (sessionId : String) (now : Nat) (beh : ProcBehavior) :
    Option StopResult × MgrState × List String :=
  match mapGet st.sessions sessionId with
  | none => (none, st, [])
  | some _ =>
    let previous := st.currentSessionId
    let r := stopCurrentSession { st with currentSessionId := some sessionId } now beh
    match previous with
    | some p =>
      if p ≠ "" ∧ p ≠ sessionId then (r.1, { r.2.1 with currentSessionId := some p }, r.2.2)
      else r
    | none => r

/-- ExtensionManager.waitForSessionCompletion: rejects when the session id
is unknown, otherwise registers the resolve callback for the session. -/
def waitForSessionCompletion (st : MgrState) (sessionId : String) :
    Except String MgrState :=
  if (mapGet st.sessions sessionId).isSome then
    .ok { st with
          waiters := if st.waiters.contains sessionId then st.waiters
                     else st.waiters ++ [sessionId] }
  else .error ("Session not found: " ++ sessionId)

/-- The character JS uses for base-36 digit d: 0-9 then a-z. -/
def base36DigitChar (d : Nat) : Char :=
  if d < 10 then Char.ofNat (48 + d) else Char.ofNat (87 + d)

/-- `x.toString(36)` for `x = Math.random()`, a double in [0, 1), with the
double represented by the list of base-36 fractional digits JS prints: the
value 0 prints as "0", a nonzero value prints as "0." followed by its
digits (each < 36). -/
def jsRandomToString36 (digits : List Nat) : String :=
  if digits.isEmpty then "0" else "0." ++ String.mk (digits.map base36DigitChar)

/-- JS String.prototype.substring(a, b) for a ≤ b. -/
def jsSubstring (s : String) (a b : Nat) : String :=
  String.mk ((s.data.drop a).take (b - a))

/-- ExtensionManager.generateSessionId:
`test-` + Math.random().toString(36).substring(2, 10). -/
def generateSessionId (digits : List Nat) : String :=
  "test-" ++ jsSubstring (jsRandomToString36 digits) 2 10

/-- The suffix after "test-" that generateSessionId produces (the substring
expression written out on the character list). -/
def sessionIdSuffix (digits : List Nat) : List Char :=
  (jsSubstring (jsRandomToString36 digits) 2 10).data

/-- Decidable check of the spec pattern test-[a-z0-9]\x7b8\x7d: the first
five characters are "test-" and exactly eight characters from [a-z0-9]
follow. -/
def matchesSessionIdPattern (s : String) : Bool :=
  s.data.take 5 == "test-".data && (s.data.drop 5).length == 8
    && (s.data.drop 5).all (fun c =>
        ((97 ≤ c.toNat && c.toNat ≤ 122) || (48 ≤ c.toNat && c.toNat ≤ 57)))

/-- Character class [a-z0-9]. -/
def isSessionIdChar (c : Char) : Bool :=
  (97 ≤ c.toNat && c.toNat ≤ 122) || (48 ≤ c.toNat && c.toNat ≤ 57)

/-- Filesystem side effects of a launch attempt, reported explicitly so their
absence on the failure path is a provable statement. -/
structure LaunchEffects where
  mkdirs : List String
  promptWrites : List (String × String)
  spawns : List (String × List String)
deriving Repr, DecidableEq

/-- The .PROMPT content launchExtension writes. -/
def promptFileContent (prompt sessionId : String) : String :=
  prompt ++ "\n\n---\n\nSession ID: " ++ sessionId ++
    "\n\nTo stop this extension test, use the stop_dev_extension tool."

/-- ExtensionManager.launchExtension(extensionPath, prompt, dir) at time
`now`, with fs.existsSync modelled by the oracle fsExists, the Math.random
draw by its digit list, and the spawned pid given.  Body order is the
source's: the extensionPath existence check throws before any effect; then
mkdir of dir if missing, session id generation, prompt-file write
(path.join(dir, ".PROMPT") written as dir ++ "/.PROMPT"), spawn of the
code process, and registration of the session as current. -/
def launchExtension (st : MgrState) (fsExists : String → Bool)
    (extensionPath prompt dir : String) (randDigits : List Nat) (now pid : Nat) :
    Except String String × MgrState × LaunchEffects :=
  if fsExists extensionPath = false then
    (.error ("Extension path does not exist: " ++ extensionPath), st, ⟨[], [], []⟩)
  else
    let mkdirs := if fsExists dir = false then [dir] else []
    let sessionId := generateSessionId randDigits
    let promptFilePath := dir ++ "/.PROMPT"
    let session : ExtensionProcess :=
      { sessionId := sessionId, extensionPath := extensionPath, testDir := dir,
        prompt := prompt, startTime := now, pid := pid, output := [], errors := [] }
    (.ok sessionId,
     { st with sessions := mapSet st.sessions sessionId session,
               currentSessionId := some sessionId },
     ⟨mkdirs, [(promptFilePath, promptFileContent prompt sessionId)],
      [("code", ["--extensionDevelopmentPath=" ++ extensionPath, "--disable-extensions", dir])]⟩)

/-- A tool call response reduced to its text content and error flag. -/
structure McpTextResponse where
  text : String
  isError : Bool
deriving Repr, DecidableEq

/-- The validation-and-launch phase of LaunchDevExtensionTool.execute
(launchDevExtension.ts, bundled in the vscode-extension-testing README
source file).  Faithful points: the derived paths are
path.join(workspaceDir, "src") and path.join(workspaceDir, "examples");
a missing workspace directory and a missing derived extension path each
return an isError text response (the latter naming the derived path with its
"(derived from .../src)" suffix) before any mkdir, prompt write, spawn or
registry change; otherwise the tool creates the test directory if missing
(so launchExtension's own existence check then sees it) and delegates to
ExtensionManager.launchExtension, whose thrown errors the outer catch wraps
as an isError "Error launching VSCode extension: ..." response.  The
successful branch then blocks on waitForSessionCompletion and formats the
eventual result with launchSuccessText below. -/
def launchDevExtensionExecute (st : MgrState) (fsExists : String → Bool)
    (workspaceDir prompt : String) (randDigits : List Nat) (now pid : Nat) :
    Except McpTextResponse String × MgrState × LaunchEffects :=
  let resolvedExtensionPath := workspaceDir ++ "/src"
  let resolvedDir := workspaceDir ++ "/examples"
  if fsExists workspaceDir = false then
    (.error { text := "Error: Workspace directory does not exist: " ++ workspaceDir,
              isError := true }, st, ⟨[], [], []⟩)
  else if fsExists resolvedExtensionPath = false then
    (.error { text := "Error: Extension path does not exist: " ++ resolvedExtensionPath ++
                " (derived from " ++ workspaceDir ++ "/src)", isError := true },
     st, ⟨[], [], []⟩)
  else
    let mkdirs := if fsExists resolvedDir = false then [resolvedDir] else []
    let fsAfter := fun p => if p = resolvedDir then true else fsExists p
    match launchExtension st fsAfter resolvedExtensionPath prompt resolvedDir
        randDigits now pid with
    | (.error msg, st2, eff) =>
      (.error { text := "Error launching VSCode extension: " ++ msg, isError := true },
       st2, ⟨mkdirs ++ eff.mkdirs, eff.promptWrites, eff.spawns⟩)
    | (.ok sid, st2, eff) =>
      (.ok sid, st2, ⟨mkdirs ++ eff.mkdirs, eff.promptWrites, eff.spawns⟩)

/-- Integer rendering of `(result.duration / 1000).toFixed(2)` for
nonnegative millisecond durations (round to nearest centisecond; exact
double-rounding at ties is not distinguishable at the level of the claims,
none of which constrain this field). -/
def durationSecondsDisplay (ms : Int) : String :=
  let centi := (ms.toNat + 5) / 10
  toString (centi / 100) ++ "." ++
    (if centi % 100 < 10 then "0" ++ toString (centi % 100) else toString (centi % 100))

/-- `${result.exitCode ?? "unknown"}`. -/
def exitCodeDisplay : Option Int → String
  | some c => toString c
  | none => "unknown"

/-- The combined output/error text of StopDevExtensionTool.execute:
output lines joined by newlines or "No output captured", followed by the
errors block when errors are present. -/
def combinedResultText (r : StopResult) : String :=
  (if r.output.length > 0 then String.intercalate "\n" r.output else "No output captured")
    ++ (if r.errors.length > 0 then "\n\nErrors:\n" ++ String.intercalate "\n" r.errors else "")

/-- The fixed character budget of the tool result text. -/
def maxResultLength : Nat := 1000

/-- The truncation marker appended when the budget is exceeded. -/
def truncationMarker : String :=
  "...\n(Output truncated, full logs available in the terminal)"

/-- The truncation step of StopDevExtensionTool.execute:
`resultText.length > maxLength ? resultText.substring(0, maxLength) + marker
: resultText`. -/
def truncateResultText (resultText : String) : String :=
  if resultText.length > maxResultLength then
    jsSubstring resultText 0 maxResultLength ++ truncationMarker
  else resultText

/-- The header of the stop tool's success text, up to the Results block. -/
def stopResponseHeader (r : StopResult) : String :=
  "VSCode extension test stopped. Test ran for " ++ durationSecondsDisplay r.duration ++
    " seconds with exit code " ++ exitCodeDisplay r.exitCode ++ "."

/-- The full success text of StopDevExtensionTool.execute. -/
def stopSuccessText (r : StopResult) : String :=
  stopResponseHeader r ++ "\n\nResults:\n" ++ truncateResultText (combinedResultText r)

/-- The header of LaunchDevExtensionTool.execute's success text
(launchDevExtension.ts, bundled in the vscode-extension-testing README
source file), up to the Results block. -/
def launchResponseHeader (r : StopResult) : String :=
  "VSCode extension test completed in " ++ durationSecondsDisplay r.duration ++
    " seconds with exit code " ++ exitCodeDisplay r.exitCode ++ "."

/-- The full success text of LaunchDevExtensionTool.execute: its combined
output/error text, truncation budget and marker are character-for-character
the same code as the stop tool's. -/
def launchSuccessText (r : StopResult) : String :=
  launchResponseHeader r ++ "\n\nResults:\n" ++ truncateResultText (combinedResultText r)

/-- The no-sessionId branch of StopDevExtensionTool.execute: looks up the
current session (responding with a plain, non-error text when none), stops
it, and formats the result. -/
def stopCurrentBranch (st : MgrState) (now : Nat) (beh : ProcBehavior) :
    McpTextResponse × MgrState :=
  match getCurrentSession st with
  | none => ({ text := "No active VSCode extension test found. Nothing to stop.",
               isError := false }, st)
  | some _ =>
    let r := stopCurrentSession st now beh
    match r.1 with
    | none => ({ text := "Failed to stop VSCode extension test. No result returned.",
                 isError := true }, r.2.1)
    | some result => ({ text := stopSuccessText result, isError := false }, r.2.1)

/-- StopDevExtensionTool.execute: with a (truthy) sessionId argument it stops
that session by id and — when no session was found — responds with the
"Nothing to stop" text marked isError: true; with no sessionId (or the falsy
empty string) it takes the current-session branch. -/
def stopDevExtensionExecute (st : MgrState) (sessionIdArg : Option String)
    (now : Nat) (beh : ProcBehavior) : McpTextResponse × MgrState :=
  match sessionIdArg with
  | some sid =>
    if sid = "" then stopCurrentBranch st now beh
    else
      let r := stopSessionById st sid now beh
      match r.1 with
      | none => ({ text := "No VSCode extension test found with session ID: " ++ sid ++
                     ". Nothing to stop.", isError := true }, r.2.1)
      | some result => ({ text := stopSuccessText result, isError := false }, r.2.1)
  | none => stopCurrentBranch st now beh

/-! Helper lemmas about the association-list operations. -/

theorem mapGet_delete_self {α : Type} (m : List (String × α)) (k : String) :
    mapGet (mapDelete m k) k = none := by
  induction m with
  | nil => rfl
  | cons p rest ih =>
    simp only [mapDelete, List.filter_cons] at *
    by_cases h : p.1 = k
    · simpa [h] using ih
    · simpa [mapGet, h] using ih

theorem mapGet_delete_ne {α : Type} (m : List (String × α)) (k q : String) (h : q ≠ k) :
    mapGet (mapDelete m k) q = mapGet m q := by
  induction m with
  | nil => rfl
  | cons p rest ih =>
    simp only [mapDelete, List.filter_cons] at *
    by_cases hp : p.1 = k
    · have hq : ¬(k = q) := fun hc => h hc.symm
      simp [hp, mapGet, hq, ih]
    · simp [hp, mapGet, ih]

theorem contains_filter_self (l : List String) (k : String) :
    (l.filter (fun x => x != k)).contains k = false := by
  simp only [List.contains]
  rw [Bool.eq_false_iff]
  intro h
  have hm := List.elem_iff.mp h
  simp [List.mem_filter] at hm

theorem deliveriesFor_append_self (d : List (String × StopResult)) (k : String)
    (r : StopResult) :
    deliveriesFor k (d ++ [(k, r)]) = deliveriesFor k d + 1 := by
  simp [deliveriesFor, List.filter_append]

theorem mapGet_mem {α : Type} {m : List (String × α)} {k : String} {v : α}
    (h : mapGet m k = some v) : (k, v) ∈ m := by
  induction m with
  | nil => simp [mapGet] at h
  | cons p rest ih =>
    simp only [mapGet] at h
    by_cases hp : p.1 = k
    · rw [if_pos hp] at h
      injection h with h2
      have hpk : p = (k, v) := by
        cases p with
        | mk a b =>
          simp at hp h2
          simp [hp, h2]
      rw [hpk]
      exact List.mem_cons_self _ _
    · rw [if_neg hp] at h
      exact List.mem_cons_of_mem _ (ih h)

theorem wf_lookup {st : MgrState} {k : String} {s : ExtensionProcess}
    (hwf : wfState st = true) (h : mapGet st.sessions k = some s) :
    s.sessionId = k := by
  have hall := List.all_eq_true.mp hwf
  have hmem := mapGet_mem h
  simpa using hall _ hmem

theorem stopSessionById_core (st : MgrState) (sid : String) (now : Nat)
    (beh : ProcBehavior) (s : ExtensionProcess) (hs : mapGet st.sessions sid = some s) :
    (stopSessionById st sid now beh).2.1.delivered
      = (stopCurrentSession { st with currentSessionId := some sid } now beh).2.1.delivered
    ∧ (stopSessionById st sid now beh).2.1.waiters
      = (stopCurrentSession { st with currentSessionId := some sid } now beh).2.1.waiters
    ∧ (stopSessionById st sid now beh).2.1.sessions
      = (stopCurrentSession { st with currentSessionId := some sid } now beh).2.1.sessions
    ∧ (stopSessionById st sid now beh).1
      = (stopCurrentSession { st with currentSessionId := some sid } now beh).1 := by
  simp only [stopSessionById, hs]
  cases hc : st.currentSessionId with
  | none => simp
  | some p =>
    by_cases hp : p ≠ "" ∧ p ≠ sid <;> simp [hp]

theorem mem_of_contains {l : List String} {k : String} (h : l.contains k = true) :
    k ∈ l := by
  simp only [List.contains] at h
  exact List.elem_iff.mp h

theorem not_mem_filter_self (l : List String) (k : String) :
    k ∉ l.filter (fun x => x != k) := by
  intro h
  simp [List.mem_filter] at h

theorem handleExternal_spec (st : MgrState) (sid : String) (s : ExtensionProcess)
    (code : Option Int) (now : Nat)
    (hs : mapGet st.sessions sid = some s) (hw : st.waiters.contains sid = true) :
    handleExternalProcessTermination st sid code now
      = { sessions := mapDelete st.sessions sid,
          currentSessionId :=
            if st.currentSessionId = some sid then none else st.currentSessionId,
          waiters := st.waiters.filter (fun x => x != sid),
          delivered := st.delivered ++ [(sid,
            { sessionId := s.sessionId, duration := (now : Int) - (s.startTime : Int),
              exitCode := code, output := s.output, errors := s.errors })] } := by
  simp [handleExternalProcessTermination, hs, mem_of_contains hw]

theorem stopCurrent_waiter_spec (st : MgrState) (sid : String) (s : ExtensionProcess)
    (now : Nat) (beh : ProcBehavior)
    (hcur : st.currentSessionId = some sid) (hne : sid ≠ "")
    (hs : mapGet st.sessions sid = some s) (hid : s.sessionId = sid)
    (hw : st.waiters.contains sid = true) :
    deliveriesFor sid (stopCurrentSession st now beh).2.1.delivered
        = deliveriesFor sid st.delivered + 1
    ∧ (stopCurrentSession st now beh).2.1.waiters.contains sid = false
    ∧ mapGet (stopCurrentSession st now beh).2.1.sessions sid = none := by
  have hget : getCurrentSession st = some s := by simp [getCurrentSession, hcur, hne, hs]
  have hwm : sid ∈ st.waiters := mem_of_contains hw
  rcases beh with ⟨code, tExit⟩ | _
  · by_cases ht : tExit ≤ gracePeriodMs
    · simp only [stopCurrentSession, hget, ht, if_true, hid]
      rw [handleExternal_spec st sid s code (now + tExit) hs hw]
      simp [finishStop, hid, not_mem_filter_self, mapGet_delete_self,
        deliveriesFor_append_self]
    · simp only [stopCurrentSession, hget, ht, if_false]
      simp [finishStop, hid, hwm, not_mem_filter_self, mapGet_delete_self,
        deliveriesFor_append_self]
  · simp only [stopCurrentSession, hget]
    simp [finishStop, hid, hwm, not_mem_filter_self, mapGet_delete_self,
      deliveriesFor_append_self]

theorem mapDelete_idem {α : Type} (m : List (String × α)) (k : String) :
    mapDelete (mapDelete m k) k = mapDelete m k := by
  simp [mapDelete, List.filter_filter]

theorem mem_delete_sub {α : Type} {m : List (String × α)} {k : String}
    {p : String × α} (h : p ∈ mapDelete m k) : p ∈ m ∧ p.1 ≠ k := by
  simp only [mapDelete, List.mem_filter] at h
  exact ⟨h.1, by simpa using h.2⟩

theorem stopSessionById_current (st : MgrState) (sid : String) (now : Nat)
    (beh : ProcBehavior) (s : ExtensionProcess) (hs : mapGet st.sessions sid = some s) :
    (stopSessionById st sid now beh).2.1.currentSessionId
      = match st.currentSessionId with
        | some p =>
          if p ≠ "" ∧ p ≠ sid then some p
          else (stopCurrentSession { st with currentSessionId := some sid }
                  now beh).2.1.currentSessionId
        | none => (stopCurrentSession { st with currentSessionId := some sid }
                  now beh).2.1.currentSessionId := by
  simp only [stopSessionById, hs]
  cases hc : st.currentSessionId with
  | none => simp
  | some p => by_cases hp : p ≠ "" ∧ p ≠ sid <;> simp [hp]

theorem stopCurrent_post_spec (st : MgrState) (sid : String) (s : ExtensionProcess)
    (now : Nat) (beh : ProcBehavior)
    (hcur : st.currentSessionId = some sid) (hne : sid ≠ "")
    (hs : mapGet st.sessions sid = some s) (hid : s.sessionId = sid) :
    (stopCurrentSession st now beh).2.1.sessions = mapDelete st.sessions sid
    ∧ (stopCurrentSession st now beh).2.1.currentSessionId = none
    ∧ (stopCurrentSession st now beh).1.isSome = true := by
  have hget : getCurrentSession st = some s := by simp [getCurrentSession, hcur, hne, hs]
  by_cases hw : st.waiters.contains sid = true
  · rcases beh with ⟨code, tExit⟩ | _
    · by_cases ht : tExit ≤ gracePeriodMs
      · simp only [stopCurrentSession, hget, ht, if_true, hid]
        rw [handleExternal_spec st sid s code (now + tExit) hs hw]
        simp [finishStop, mapDelete_idem, hid, hcur]
      · simp only [stopCurrentSession, hget, ht, if_false]
        simp [finishStop, hid, hcur]
    · simp only [stopCurrentSession, hget]
      simp [finishStop, hid, hcur]
  · have hw' : sid ∉ st.waiters := by
      intro hmem
      exact hw (List.elem_iff.mpr hmem)
    rcases beh with ⟨code, tExit⟩ | _
    · by_cases ht : tExit ≤ gracePeriodMs
      · simp only [stopCurrentSession, hget, ht, if_true, hid]
        simp [handleExternalProcessTermination, hs, hw', finishStop, hid, hcur]
      · simp only [stopCurrentSession, hget, ht, if_false]
        simp [finishStop, hid, hcur]
    · simp only [stopCurrentSession, hget]
      simp [finishStop, hid, hcur]

/-! Scenario states used by the claim theorems and their witnesses. -/

/-- Concrete state for C1: one live session whose process will exit on its
own, with no awaitCompletion waiter registered. -/
def c1Session : ExtensionProcess :=
  { sessionId := "test-stale001", extensionPath := "/w/src", testDir := "/w/examples",
    prompt := "p", startTime := 0, pid := 7, output := [], errors := [] }

/-- Registry holding only c1Session, with no waiter. -/
def c1State : MgrState :=
  { sessions := [("test-stale001", c1Session)], currentSessionId := some "test-stale001",
    waiters := [], delivered := [] }

/-- Claim C1 counterexample: the exit event of a session with no registered
awaitCompletion waiter fires (no preceding stop call); the handler leaves the
manager state entirely unchanged, so the terminated session's identifier is
still in the registry and getAllSessions still lists it. -/
theorem externalExit_noWaiter_leaves_session :
    handleExternalProcessTermination c1State "test-stale001" (some 0) 500 = c1State
    ∧ mapGet (handleExternalProcessTermination c1State "test-stale001" (some 0) 500).sessions
        "test-stale001" = some c1Session
    ∧ getAllSessions (handleExternalProcessTermination c1State "test-stale001" (some 0) 500)
        = [c1Session] := by
  refine ⟨?_, ?_, ?_⟩ <;> decide

/-- Claim C1 (amended): when the exit event fires with no preceding stop
call, the session identifier is removed from the registry (with a delivery to
the waiter) only when an awaitCompletion waiter is registered; when no waiter
is registered the handler performs nothing at all, and the terminated
session's identifier remains in the registry. -/
theorem externalExit_removal_iff_waiter (st : MgrState) (sid : String)
    (s : ExtensionProcess) (code : Option Int) (now : Nat)
    (hs : mapGet st.sessions sid = some s) :
    (st.waiters.contains sid = true →
      mapGet (handleExternalProcessTermination st sid code now).sessions sid = none
      ∧ deliveriesFor sid (handleExternalProcessTermination st sid code now).delivered
          = deliveriesFor sid st.delivered + 1)
    ∧ (st.waiters.contains sid = false →
      handleExternalProcessTermination st sid code now = st) := by
  constructor
  · intro hw
    simp only [handleExternalProcessTermination, hs, hw, if_true]
    exact ⟨mapGet_delete_self _ _, deliveriesFor_append_self _ _ _⟩
  · intro hw
    have hw' : sid ∉ st.waiters := by
      intro hmem
      simp only [List.contains] at hw
      rw [List.elem_iff.mpr hmem] at hw
      simp at hw
    simp [handleExternalProcessTermination, hs, hw']

/-- Concrete state for the C1 witness: one live session with a registered
awaitCompletion waiter. -/
def c1wSession : ExtensionProcess :=
  { sessionId := "test-w0000001", extensionPath := "/w/src", testDir := "/w/examples",
    prompt := "p", startTime := 0, pid := 8, output := [], errors := [] }

/-- Registry holding only c1wSession, with its waiter registered. -/
def c1wState : MgrState :=
  { sessions := [("test-w0000001", c1wSession)], currentSessionId := some "test-w0000001",
    waiters := ["test-w0000001"], delivered := [] }

/-- Witness for the amended C1 theorem at a concrete state with a waiter. -/
theorem externalExit_removal_iff_waiter_witness :
    mapGet (handleExternalProcessTermination c1wState "test-w0000001" (some 0) 9).sessions
        "test-w0000001" = none
    ∧ deliveriesFor "test-w0000001"
        (handleExternalProcessTermination c1wState "test-w0000001" (some 0) 9).delivered
      = deliveriesFor "test-w0000001" c1wState.delivered + 1 :=
  (externalExit_removal_iff_waiter c1wState "test-w0000001" c1wSession (some 0) 9
    (by decide)).1 (by decide)

/-- Concrete state for C2: one live session with a pending awaitCompletion
waiter. -/
def c2Session : ExtensionProcess :=
  { sessionId := "test-c2live01", extensionPath := "/w/src", testDir := "/w/examples",
    prompt := "p", startTime := 10, pid := 9, output := ["o"], errors := [] }

/-- Registry holding only c2Session, with its waiter registered. -/
def c2State : MgrState :=
  { sessions := [("test-c2live01", c2Session)], currentSessionId := some "test-c2live01",
    waiters := ["test-c2live01"], delivered := [] }

/-- Claim C2: a session with a pending awaitCompletion waiter has its waiter
resolved with exactly one CompletionResult even when an explicit stop and the
process's own exit event race.  An explicit stopSessionById run — under any
process behavior, including the exit event firing during the stop's wait and
being handled first by the launch-time exit listener — adds exactly one
delivery for the session and deregisters its waiter; an exit event arriving
after the stop finds the session removed and delivers nothing further; and
when the exit event is handled before the stop, the stop finds the session
removed and delivers nothing further. -/
theorem awaitCompletion_delivered_exactly_once (st : MgrState) (sid : String)
    (s : ExtensionProcess) (now now2 now3 : Nat) (beh : ProcBehavior) (code : Option Int)
    (hwf : wfState st = true)
    (hs : mapGet st.sessions sid = some s)
    (hw : st.waiters.contains sid = true)
    (hne : sid ≠ "") :
    deliveriesFor sid (stopSessionById st sid now beh).2.1.delivered
      = deliveriesFor sid st.delivered + 1
    ∧ (stopSessionById st sid now beh).2.1.waiters.contains sid = false
    ∧ deliveriesFor sid
        (handleExternalProcessTermination
          (stopSessionById st sid now beh).2.1 sid code now2).delivered
      = deliveriesFor sid st.delivered + 1
    ∧ deliveriesFor sid
        (stopSessionById
          (handleExternalProcessTermination st sid code now3) sid now beh).2.1.delivered
      = deliveriesFor sid st.delivered + 1 := by
  have hid := wf_lookup hwf hs
  obtain ⟨hd, hwt, hss, _⟩ := stopSessionById_core st sid now beh s hs
  have hm := stopCurrent_waiter_spec { st with currentSessionId := some sid } sid s now beh
      (by simp) hne (by simpa using hs) hid (by simpa using hw)
  refine ⟨?_, ?_, ?_, ?_⟩
  · rw [hd]; simpa using hm.1
  · rw [hwt]; exact hm.2.1
  · have hnone : mapGet (stopSessionById st sid now beh).2.1.sessions sid = none := by
      rw [hss]; exact hm.2.2
    simp only [handleExternalProcessTermination, hnone]
    rw [hd]; simpa using hm.1
  · rw [handleExternal_spec st sid s code now3 hs hw]
    have hdel : mapGet (mapDelete st.sessions sid) sid = none := mapGet_delete_self _ _
    simp only [stopSessionById]
    simp [hdel, deliveriesFor_append_self]

/-- Witness for the C2 theorem: the exactly-once facts at the concrete
two-producer race (the stop's wait sees the exit event at 100 ms). -/
theorem awaitCompletion_delivered_exactly_once_witness :
    deliveriesFor "test-c2live01"
        (stopSessionById c2State "test-c2live01" 50 (.exits (some 0) 100)).2.1.delivered
      = deliveriesFor "test-c2live01" c2State.delivered + 1
    ∧ (stopSessionById c2State "test-c2live01" 50
        (.exits (some 0) 100)).2.1.waiters.contains "test-c2live01" = false
    ∧ deliveriesFor "test-c2live01"
        (handleExternalProcessTermination
          (stopSessionById c2State "test-c2live01" 50 (.exits (some 0) 100)).2.1
          "test-c2live01" (some 0) 60).delivered
      = deliveriesFor "test-c2live01" c2State.delivered + 1
    ∧ deliveriesFor "test-c2live01"
        (stopSessionById
          (handleExternalProcessTermination c2State "test-c2live01" (some 0) 70)
          "test-c2live01" 50 (.exits (some 0) 100)).2.1.delivered
      = deliveriesFor "test-c2live01" c2State.delivered + 1 :=
  awaitCompletion_delivered_exactly_once c2State "test-c2live01" c2Session 50 60 70
    (.exits (some 0) 100) (some 0) (by decide) (by decide) (by decide) (by decide)

/-- Concrete state for C3: a live session whose process ignores the graceful
signal and does not exit within the 5000 ms grace period. -/
def c3Session : ExtensionProcess :=
  { sessionId := "test-stuck001", extensionPath := "/w/src", testDir := "/w/examples",
    prompt := "p", startTime := 0, pid := 11, output := [], errors := [] }

/-- Registry holding only the stuck c3Session as current. -/
def c3State : MgrState :=
  { sessions := [("test-stuck001", c3Session)], currentSessionId := some "test-stuck001",
    waiters := [], delivered := [] }

/-- Claim C3 (code bug, evaluated at the failing input): stopping a live
session whose process does not exit within the 5000 ms grace period sends
only SIGTERM and never the forceful SIGKILL, because the escalation branch
tests process.killed === false while Node sets killed to true as soon as the
SIGTERM was successfully sent (killed records signal delivery, not process
exit).  The run's signal list is exactly ["SIGTERM"], SIGKILL is absent, and
the result reports no exit code even though the grace period elapsed. -/
theorem graceTimeout_sends_no_sigkill :
    (stopCurrentSession c3State 6000 .noExit).2.2 = ["SIGTERM"]
    ∧ (stopCurrentSession c3State 6000 .noExit).2.2.contains "SIGKILL" = false
    ∧ (stopCurrentSession c3State 6000 .noExit).1 =
        some { sessionId := "test-stuck001", duration := 6000, exitCode := none,
               output := [], errors := [] } := by
  refine ⟨?_, ?_, ?_⟩ <;> decide

/-- Concrete state for C4: one live session with a pending awaitCompletion
waiter, whose process exits 100 ms after receiving the stop's SIGTERM. -/
def c4Session : ExtensionProcess :=
  { sessionId := "test-c4race01", extensionPath := "/w/src", testDir := "/w/examples",
    prompt := "p", startTime := 0, pid := 12, output := ["x"], errors := [] }

/-- Registry holding only c4Session, with its waiter registered. -/
def c4State : MgrState :=
  { sessions := [("test-c4race01", c4Session)], currentSessionId := some "test-c4race01",
    waiters := ["test-c4race01"], delivered := [] }

/-- Claim C4 counterexample: stopping the session at time 1000 while its
process exits 100 ms after the SIGTERM resolves the waiter (via the
launch-time exit listener) with a result whose duration is 1100 ms, while the
stop caller receives a separately assembled result whose duration is 1000 ms
(computed at stop entry) — the two CompletionResults are not identical. -/
theorem stop_and_waiter_results_differ :
    ((stopSessionById c4State "test-c4race01" 1000 (.exits (some 0) 100)).1.map
        StopResult.duration) = some 1000
    ∧ ((stopSessionById c4State "test-c4race01" 1000
          (.exits (some 0) 100)).2.1.delivered.map (fun p => p.2.duration)) = [1100] := by
  refine ⟨?_, ?_⟩ <;> decide

/-- Claim C4 (amended): for a session with a pending awaitCompletion waiter
terminated by an explicit stop, the result returned to the stop caller and
the result delivered to the waiter agree on session identifier, exit code,
output and errors; they are fully identical when the process does not exit
during the stop's grace-period wait, but when the exit event fires tExit ms
into the wait the waiter's result carries a duration larger by tExit (the
waiter's duration is measured at exit observation, the caller's at stop
entry). -/
theorem stop_and_waiter_results_agree_except_duration (st : MgrState) (sid : String)
    (s : ExtensionProcess) (now : Nat) (beh : ProcBehavior)
    (hwf : wfState st = true)
    (hs : mapGet st.sessions sid = some s)
    (hw : st.waiters.contains sid = true)
    (hne : sid ≠ "") :
    ∃ rRet rDel,
      (stopSessionById st sid now beh).1 = some rRet
      ∧ (stopSessionById st sid now beh).2.1.delivered = st.delivered ++ [(sid, rDel)]
      ∧ rDel.sessionId = rRet.sessionId
      ∧ rDel.exitCode = rRet.exitCode
      ∧ rDel.output = rRet.output
      ∧ rDel.errors = rRet.errors
      ∧ (∀ code tExit, beh = .exits code tExit → tExit ≤ gracePeriodMs →
          rDel.duration = rRet.duration + tExit)
      ∧ (∀ code tExit, beh = .exits code tExit → ¬ tExit ≤ gracePeriodMs → rDel = rRet)
      ∧ (beh = .noExit → rDel = rRet) := by
  have hid := wf_lookup hwf hs
  obtain ⟨hd, hwt, hss, hres⟩ := stopSessionById_core st sid now beh s hs
  have hs1 : mapGet ({ st with currentSessionId := some sid } : MgrState).sessions sid
      = some s := by simpa using hs
  have hw1 : ({ st with currentSessionId := some sid } : MgrState).waiters.contains sid
      = true := by simpa using hw
  have hget : getCurrentSession { st with currentSessionId := some sid } = some s := by
    simp [getCurrentSession, hne, hs]
  rcases beh with ⟨code, tExit⟩ | _
  · by_cases ht : tExit ≤ gracePeriodMs
    · refine ⟨⟨sid, (now : Int) - (s.startTime : Int), code, s.output, s.errors⟩,
              ⟨sid, ((now : Int) + (tExit : Int)) - (s.startTime : Int), code,
                s.output, s.errors⟩, ?_, ?_, rfl, rfl, rfl, rfl, ?_, ?_, ?_⟩
      · rw [hres]
        simp only [stopCurrentSession, hget, ht, if_true, hid]
        rw [handleExternal_spec _ sid s code (now + tExit) hs1 hw1]
        simp [finishStop, hid]
      · rw [hd]
        simp only [stopCurrentSession, hget, ht, if_true, hid]
        rw [handleExternal_spec _ sid s code (now + tExit) hs1 hw1]
        simp [finishStop, hid, not_mem_filter_self, Nat.cast_add]
      · intro c t hb hle
        injection hb with h1 h2
        subst h1; subst h2
        simp only []
        ring
      · intro c t hb hgt
        injection hb with h1 h2
        subst h2
        exact absurd ht hgt
      · intro hb
        exact absurd hb (by simp)
    · refine ⟨⟨sid, (now : Int) - (s.startTime : Int), none, s.output, s.errors⟩,
              ⟨sid, (now : Int) - (s.startTime : Int), none, s.output, s.errors⟩,
              ?_, ?_, rfl, rfl, rfl, rfl, ?_, ?_, ?_⟩
      · rw [hres]
        simp only [stopCurrentSession, hget, ht, if_false]
        simp [finishStop, hid]
      · rw [hd]
        simp only [stopCurrentSession, hget, ht, if_false]
        simp [finishStop, hid, mem_of_contains hw1]
      · intro c t hb hle
        injection hb with h1 h2
        subst h2
        exact absurd hle ht
      · intro c t hb hgt
        rfl
      · intro hb
        rfl
  · refine ⟨⟨sid, (now : Int) - (s.startTime : Int), none, s.output, s.errors⟩,
            ⟨sid, (now : Int) - (s.startTime : Int), none, s.output, s.errors⟩,
            ?_, ?_, rfl, rfl, rfl, rfl, ?_, ?_, ?_⟩
    · rw [hres]
      simp only [stopCurrentSession, hget]
      simp [finishStop, hid]
    · rw [hd]
      simp only [stopCurrentSession, hget]
      simp [finishStop, hid, mem_of_contains hw1]
    · intro c t hb hle
      exact absurd hb (by simp)
    · intro c t hb hgt
      rfl
    · intro hb
      rfl

/-- Claim C5 counterexample: on the empty registry the stop tool invoked
with an unknown sessionId returns its "Nothing to stop" text, but flags the
response as an error result (isError: true) — while the manager-level
stopSessionById call indeed returns absent and changes nothing. -/
theorem stopTool_unknown_session_isError :
    (stopDevExtensionExecute ⟨[], none, [], []⟩ (some "nonexistent-id") 0 .noExit).1.isError
      = true
    ∧ stopSessionById (⟨[], none, [], []⟩ : MgrState) "nonexistent-id" 0 .noExit
        = (none, ⟨[], none, [], []⟩, []) := by
  refine ⟨?_, ?_⟩ <;> decide

/-- Claim C5 (amended): for an identifier not present in the registry,
stopSessionById returns absent, raises no error and leaves the manager state
unchanged; the stop_dev_extension tool invoked with such a sessionId responds
with the "... Nothing to stop." text but marks the response as an error
result (isError: true); the tool's non-error "nothing to stop" response is
the one produced when no sessionId argument is supplied and no session is
current. -/
theorem stopById_unknown_absent (st : MgrState) (sid : String) (now : Nat)
    (beh : ProcBehavior)
    (hs : mapGet st.sessions sid = none) (hne : sid ≠ "") :
    stopSessionById st sid now beh = (none, st, [])
    ∧ (stopDevExtensionExecute st (some sid) now beh).1
        = { text := "No VSCode extension test found with session ID: " ++ sid ++
              ". Nothing to stop.", isError := true }
    ∧ (stopDevExtensionExecute st (some sid) now beh).2 = st
    ∧ (∀ st2 : MgrState, st2.currentSessionId = none →
        (stopDevExtensionExecute st2 none now beh).1
          = { text := "No active VSCode extension test found. Nothing to stop.",
              isError := false }) := by
  have h1 : stopSessionById st sid now beh = (none, st, []) := by
    simp [stopSessionById, hs]
  refine ⟨h1, ?_, ?_, ?_⟩
  · simp [stopDevExtensionExecute, hne, h1]
  · simp [stopDevExtensionExecute, hne, h1]
  · intro st2 h2
    simp [stopDevExtensionExecute, stopCurrentBranch, getCurrentSession, h2]

/-- Concrete state for the C5 witness: a registry holding one unrelated
session. -/
def c5Session : ExtensionProcess :=
  { sessionId := "test-c5other1", extensionPath := "/w/src", testDir := "/w/examples",
    prompt := "p", startTime := 0, pid := 13, output := [], errors := [] }

/-- Registry holding only c5Session. -/
def c5State : MgrState :=
  { sessions := [("test-c5other1", c5Session)], currentSessionId := some "test-c5other1",
    waiters := [], delivered := [] }

/-- Witness for the amended C5 theorem at a concrete state and unknown id. -/
theorem stopById_unknown_absent_witness :
    stopSessionById c5State "test-nothere1" 3 .noExit = (none, c5State, [])
    ∧ (stopDevExtensionExecute c5State (some "test-nothere1") 3 .noExit).1
        = { text := "No VSCode extension test found with session ID: " ++ "test-nothere1" ++
              ". Nothing to stop.", isError := true }
    ∧ (stopDevExtensionExecute (⟨[], none, [], []⟩ : MgrState) none 3 .noExit).1
        = { text := "No active VSCode extension test found. Nothing to stop.",
            isError := false } := by
  obtain ⟨h1, h2, h3, h4⟩ :=
    stopById_unknown_absent c5State "test-nothere1" 3 .noExit (by decide) (by decide)
  exact ⟨h1, h2, h4 ⟨[], none, [], []⟩ rfl⟩

/-- Claim C6: a launch whose workspace directory exists but whose derived
extension path workspaceDir/src does not exist fails with an error response
naming the derived path (the tool's own extension-path check, which runs
before any mkdir, prompt write, spawn or call into the manager), and
performs no effect at all: the manager state is unchanged and no directory
is created, no prompt file written, no process spawned. -/
theorem launch_missing_src_fails_cleanly (st : MgrState) (fsExists : String → Bool)
    (workspaceDir prompt : String) (randDigits : List Nat) (now pid : Nat)
    (hw : fsExists workspaceDir = true)
    (hsrc : fsExists (workspaceDir ++ "/src") = false) :
    launchDevExtensionExecute st fsExists workspaceDir prompt randDigits now pid
      = (.error { text := "Error: Extension path does not exist: " ++
                    (workspaceDir ++ "/src") ++ " (derived from " ++ workspaceDir ++
                    "/src)", isError := true }, st, ⟨[], [], []⟩) := by
  simp [launchDevExtensionExecute, hw, hsrc]

/-- Witness for the C6 theorem: a concrete filesystem containing only the
workspace directory itself. -/
theorem launch_missing_src_fails_cleanly_witness :
    launchDevExtensionExecute ⟨[], none, [], []⟩ (fun p => p == "/w") "/w" "do it"
        [1, 2] 5 99
      = (.error { text := "Error: Extension path does not exist: " ++
                    ("/w" ++ "/src") ++ " (derived from " ++ "/w" ++ "/src)",
                  isError := true }, ⟨[], none, [], []⟩, ⟨[], [], []⟩) :=
  launch_missing_src_fails_cleanly ⟨[], none, [], []⟩ (fun p => p == "/w") "/w" "do it"
    [1, 2] 5 99 (by decide) (by decide)

/-- Witness for the amended C4 theorem at the concrete race state. -/
theorem stop_and_waiter_results_agree_except_duration_witness :
    ∃ rRet rDel,
      (stopSessionById c4State "test-c4race01" 1000 (.exits (some 0) 100)).1 = some rRet
      ∧ (stopSessionById c4State "test-c4race01" 1000
          (.exits (some 0) 100)).2.1.delivered = c4State.delivered ++ [("test-c4race01", rDel)]
      ∧ rDel.sessionId = rRet.sessionId
      ∧ rDel.exitCode = rRet.exitCode
      ∧ rDel.output = rRet.output
      ∧ rDel.errors = rRet.errors
      ∧ (∀ code tExit, (ProcBehavior.exits (some 0) 100) = .exits code tExit →
          tExit ≤ gracePeriodMs → rDel.duration = rRet.duration + tExit)
      ∧ (∀ code tExit, (ProcBehavior.exits (some 0) 100) = .exits code tExit →
          ¬ tExit ≤ gracePeriodMs → rDel = rRet)
      ∧ ((ProcBehavior.exits (some 0) 100) = .noExit → rDel = rRet) :=
  stop_and_waiter_results_agree_except_duration c4State "test-c4race01" c4Session 1000
    (.exits (some 0) 100) (by decide) (by decide) (by decide) (by decide)

/-- Claim C7: once stopSessionById(id) resolves with a result, id is no
longer retrievable — it has no entry in the sessions map, is not the current
session, and no record listed by getAllSessions carries it; likewise for
stopCurrentSession when id was the current session. -/
theorem stop_removes_id_from_registry (st : MgrState) (sid : String) (now : Nat)
    (beh : ProcBehavior) (r r2 : StopResult)
    (hwf : wfState st = true) :
    ((stopSessionById st sid now beh).1 = some r →
      mapGet (stopSessionById st sid now beh).2.1.sessions sid = none
      ∧ (stopSessionById st sid now beh).2.1.currentSessionId ≠ some sid
      ∧ ∀ sess ∈ getAllSessions (stopSessionById st sid now beh).2.1, sess.sessionId ≠ sid)
    ∧ (st.currentSessionId = some sid →
       (stopCurrentSession st now beh).1 = some r2 →
      mapGet (stopCurrentSession st now beh).2.1.sessions sid = none
      ∧ (stopCurrentSession st now beh).2.1.currentSessionId ≠ some sid
      ∧ ∀ sess ∈ getAllSessions (stopCurrentSession st now beh).2.1, sess.sessionId ≠ sid) := by
  have hall := List.all_eq_true.mp hwf
  constructor
  · intro h
    cases hms : mapGet st.sessions sid with
    | none =>
      have : stopSessionById st sid now beh = (none, st, []) := by
        simp [stopSessionById, hms]
      rw [this] at h
      cases h
    | some s =>
      obtain ⟨hd, hwt, hss, hres⟩ := stopSessionById_core st sid now beh s hms
      by_cases hne : sid = ""
      · have hnone : (stopCurrentSession { st with currentSessionId := some sid }
            now beh).1 = none := by
          simp [stopCurrentSession, getCurrentSession, hne]
        rw [hres, hnone] at h
        cases h
      · have hid := wf_lookup hwf hms
        have hpost := stopCurrent_post_spec { st with currentSessionId := some sid }
          sid s now beh (by simp) hne (by simpa using hms) hid
        refine ⟨?_, ?_, ?_⟩
        · rw [hss, hpost.1]
          simpa using mapGet_delete_self st.sessions sid
        · rw [stopSessionById_current st sid now beh s hms]
          cases hc : st.currentSessionId with
          | none => simp [hpost.2.1]
          | some p =>
            by_cases hp : p ≠ "" ∧ p ≠ sid
            · simp [hp.1, hp.2]
            · simp [if_neg hp, hpost.2.1]
        · intro sess hmem
          rw [getAllSessions, hss, hpost.1] at hmem
          obtain ⟨⟨k, s2⟩, hmem2, hsnd⟩ := List.mem_map.mp hmem
          obtain ⟨hin, hkne⟩ := mem_delete_sub (by simpa using hmem2)
          have hk : s2.sessionId = k := by simpa using hall _ hin
          rw [← hsnd]
          simpa [hk] using hkne
  · intro hcur h
    cases hms : mapGet st.sessions sid with
    | none =>
      by_cases hne : sid = ""
      · have : (stopCurrentSession st now beh).1 = none := by
          simp [stopCurrentSession, getCurrentSession, hcur, hne]
        rw [this] at h
        cases h
      · have : (stopCurrentSession st now beh).1 = none := by
          simp [stopCurrentSession, getCurrentSession, hcur, hne, hms]
        rw [this] at h
        cases h
    | some s =>
      by_cases hne : sid = ""
      · have : (stopCurrentSession st now beh).1 = none := by
          simp [stopCurrentSession, getCurrentSession, hcur, hne]
        rw [this] at h
        cases h
      · have hid := wf_lookup hwf hms
        have hpost := stopCurrent_post_spec st sid s now beh hcur hne hms hid
        refine ⟨?_, ?_, ?_⟩
        · rw [hpost.1]
          exact mapGet_delete_self st.sessions sid
        · rw [hpost.2.1]
          simp
        · intro sess hmem
          rw [getAllSessions, hpost.1] at hmem
          obtain ⟨⟨k, s2⟩, hmem2, hsnd⟩ := List.mem_map.mp hmem
          obtain ⟨hin, hkne⟩ := mem_delete_sub hmem2
          have hk : s2.sessionId = k := by simpa using hall _ hin
          rw [← hsnd]
          simpa [hk] using hkne

/-- Concrete state for the C7 witness: a current session that gets stopped
by id. -/
def c7Session : ExtensionProcess :=
  { sessionId := "test-c7myid01", extensionPath := "/w/src", testDir := "/w/examples",
    prompt := "p", startTime := 0, pid := 14, output := [], errors := [] }

/-- Registry holding only c7Session as current. -/
def c7State : MgrState :=
  { sessions := [("test-c7myid01", c7Session)], currentSessionId := some "test-c7myid01",
    waiters := [], delivered := [] }

/-- Witness for the C7 theorem at the concrete state. -/
theorem stop_removes_id_from_registry_witness :
    mapGet (stopSessionById c7State "test-c7myid01" 4 .noExit).2.1.sessions
        "test-c7myid01" = none
    ∧ (stopSessionById c7State "test-c7myid01" 4 .noExit).2.1.currentSessionId
        ≠ some "test-c7myid01" := by
  obtain ⟨f1, _⟩ := stop_removes_id_from_registry c7State "test-c7myid01" 4 .noExit
    ⟨"test-c7myid01", 4, none, [], []⟩ ⟨"test-c7myid01", 4, none, [], []⟩ (by decide)
  obtain ⟨g1, g2, _⟩ := f1 (by decide)
  exact ⟨g1, g2⟩

/-- Claim C10: stopSessionById(s) removes only s from the registry: every
other identifier's record is unchanged; when a different session c was
current, the current pointer names c again on return, and when s itself was
current the pointer is cleared. -/
theorem stopById_frame_effect (st : MgrState) (sid : String) (s : ExtensionProcess)
    (now : Nat) (beh : ProcBehavior)
    (hwf : wfState st = true) (hs : mapGet st.sessions sid = some s) (hne : sid ≠ "") :
    mapGet (stopSessionById st sid now beh).2.1.sessions sid = none
    ∧ (∀ q, q ≠ sid →
        mapGet (stopSessionById st sid now beh).2.1.sessions q = mapGet st.sessions q)
    ∧ (∀ c, st.currentSessionId = some c → c ≠ sid → c ≠ "" →
        (stopSessionById st sid now beh).2.1.currentSessionId = some c)
    ∧ (st.currentSessionId = some sid →
        (stopSessionById st sid now beh).2.1.currentSessionId = none) := by
  have hid := wf_lookup hwf hs
  obtain ⟨hd, hwt, hss, hres⟩ := stopSessionById_core st sid now beh s hs
  have hpost := stopCurrent_post_spec { st with currentSessionId := some sid }
    sid s now beh (by simp) hne (by simpa using hs) hid
  refine ⟨?_, ?_, ?_, ?_⟩
  · rw [hss, hpost.1]
    simpa using mapGet_delete_self st.sessions sid
  · intro q hq
    rw [hss, hpost.1]
    simpa using mapGet_delete_ne st.sessions sid q hq
  · intro c hc hcs hce
    rw [stopSessionById_current st sid now beh s hs, hc]
    simp [hcs, hce]
  · intro hc
    rw [stopSessionById_current st sid now beh s hs, hc]
    simp [hpost.2.1]

/-- Concrete state for the C10 witness: session a is current while session b
is stopped by id. -/
def c10SessionA : ExtensionProcess :=
  { sessionId := "test-c10aaaa1", extensionPath := "/w/src", testDir := "/w/examples",
    prompt := "p", startTime := 0, pid := 15, output := [], errors := [] }

/-- Second session of the C10 witness state. -/
def c10SessionB : ExtensionProcess :=
  { sessionId := "test-c10bbbb1", extensionPath := "/w/src", testDir := "/w/examples",
    prompt := "q", startTime := 2, pid := 16, output := [], errors := [] }

/-- Registry holding c10SessionA (current) and c10SessionB. -/
def c10State : MgrState :=
  { sessions := [("test-c10aaaa1", c10SessionA), ("test-c10bbbb1", c10SessionB)],
    currentSessionId := some "test-c10aaaa1", waiters := [], delivered := [] }

theorem base36DigitChar_class (d : Nat) (h : d < 36) :
    isSessionIdChar (base36DigitChar d) = true := by
  interval_cases d <;> decide

theorem sessionIdSuffix_cons (d : Nat) (ds : List Nat) :
    sessionIdSuffix (d :: ds) = ((d :: ds).map base36DigitChar).take 8 := by
  simp [sessionIdSuffix, jsSubstring, jsRandomToString36, String.data_append,
    (show ("0." : String).data = ['0', '.'] from rfl)]

theorem sessionIdSuffix_nil : sessionIdSuffix [] = [] := by decide

/-- Claim C8 counterexample: Math.random() ranges over [0, 1) and can return
0, whose base-36 rendering is "0"; substring(2, 10) of it is empty, so the
generated identifier is exactly "test-" with zero suffix characters and does
not match the pattern of a "test-" prefix followed by exactly eight [a-z0-9]
characters.  The exactly-representable draw 0.5 (rendered "0.i", digit list
[18]) likewise yields only one suffix character. -/
theorem sessionId_pattern_fails_on_zero_random :
    generateSessionId [] = "test-"
    ∧ matchesSessionIdPattern (generateSessionId []) = false
    ∧ matchesSessionIdPattern (generateSessionId [18]) = false := by
  refine ⟨?_, ?_, ?_⟩ <;> decide

/-- Claim C8 (amended): every generated identifier is the literal "test-"
followed by AT MOST eight characters drawn from [a-z0-9]; the suffix has
exactly eight characters only when the random draw's base-36 fractional
expansion has at least eight digits (which typical Math.random() outputs do,
but not all possible ones). -/
theorem sessionId_shape_bounded (digits : List Nat) (hd : ∀ d ∈ digits, d < 36) :
    generateSessionId digits = "test-" ++ String.mk (sessionIdSuffix digits)
    ∧ (sessionIdSuffix digits).length ≤ 8
    ∧ (∀ c ∈ sessionIdSuffix digits, isSessionIdChar c = true)
    ∧ (8 ≤ digits.length → (sessionIdSuffix digits).length = 8) := by
  refine ⟨rfl, ?_, ?_, ?_⟩
  · cases digits with
    | nil => decide
    | cons d ds =>
      rw [sessionIdSuffix_cons, List.length_take]
      exact Nat.min_le_left 8 _
  · intro c hc
    cases digits with
    | nil =>
      rw [sessionIdSuffix_nil] at hc
      exact absurd hc (List.not_mem_nil c)
    | cons d ds =>
      rw [sessionIdSuffix_cons] at hc
      have hc2 := List.mem_of_mem_take hc
      obtain ⟨d2, hd2, rfl⟩ := List.mem_map.mp hc2
      exact base36DigitChar_class d2 (hd d2 hd2)
  · intro hlen
    cases digits with
    | nil => simp at hlen
    | cons d ds =>
      rw [sessionIdSuffix_cons, List.length_take]
      simp only [List.length_map] at *
      omega

/-- Witness for the amended C8 theorem at an eight-digit random draw. -/
theorem sessionId_shape_bounded_witness :
    generateSessionId [0, 1, 2, 3, 4, 5, 6, 7]
      = "test-" ++ String.mk (sessionIdSuffix [0, 1, 2, 3, 4, 5, 6, 7])
    ∧ (sessionIdSuffix [0, 1, 2, 3, 4, 5, 6, 7]).length = 8 := by
  obtain ⟨h1, _, _, h4⟩ := sessionId_shape_bounded [0, 1, 2, 3, 4, 5, 6, 7] (by decide)
  exact ⟨h1, h4 (by decide)⟩

/-- Claim C9: the result texts of stop_dev_extension and launch_dev_extension
embed at most 1000 characters of the combined output/error text: the full
combined text is included when it is within the budget, and otherwise
exactly its first 1000 characters appear, followed by the truncation
marker (the two tools share this formatting code verbatim). -/
theorem tool_text_truncated_at_budget (r : StopResult) :
    stopSuccessText r
      = stopResponseHeader r ++ "\n\nResults:\n" ++ truncateResultText (combinedResultText r)
    ∧ launchSuccessText r
      = launchResponseHeader r ++ "\n\nResults:\n" ++ truncateResultText (combinedResultText r)
    ∧ ((combinedResultText r).length ≤ maxResultLength
        ∧ truncateResultText (combinedResultText r) = combinedResultText r
       ∨ maxResultLength < (combinedResultText r).length
        ∧ truncateResultText (combinedResultText r)
            = jsSubstring (combinedResultText r) 0 maxResultLength ++ truncationMarker
        ∧ (jsSubstring (combinedResultText r) 0 maxResultLength).length
            = maxResultLength) := by
  refine ⟨rfl, rfl, ?_⟩
  by_cases h : (combinedResultText r).length > maxResultLength
  · right
    refine ⟨h, by simp [truncateResultText, h], ?_⟩
    have hlen : maxResultLength ≤ (combinedResultText r).data.length := le_of_lt h
    simp only [jsSubstring, String.length, List.drop_zero, List.length_take,
      Nat.sub_zero]
    omega
  · left
    exact ⟨Nat.le_of_not_lt h, by simp [truncateResultText, h]⟩

/-- Witness for the C10 theorem at the concrete two-session state. -/
theorem stopById_frame_effect_witness :
    mapGet (stopSessionById c10State "test-c10bbbb1" 9 .noExit).2.1.sessions
        "test-c10bbbb1" = none
    ∧ mapGet (stopSessionById c10State "test-c10bbbb1" 9 .noExit).2.1.sessions
        "test-c10aaaa1" = mapGet c10State.sessions "test-c10aaaa1"
    ∧ (stopSessionById c10State "test-c10bbbb1" 9 .noExit).2.1.currentSessionId
        = some "test-c10aaaa1" := by
  obtain ⟨h1, h2, h3, _⟩ := stopById_frame_effect c10State "test-c10bbbb1" c10SessionB
    9 .noExit (by decide) (by decide) (by decide)
  exact ⟨h1, h2 _ (by decide), h3 _ rfl (by decide) (by decide)⟩

end DevMcp
